import Mathlib

/-!
Verification development for the ULOD bulk-download orchestrator
(`src/ulod/bulk/ckan.py`, `src/ulod/bulk/utils.py`).

The Python functions are embedded shallowly: pure list/str manipulation is
translated to Lean functions, stateful parts (filesystem, HTTP responses,
the catalog client) are made explicit parameters, and Python exceptions are
modelled with `Except` / `Option`.
-/

namespace ULOD

/-! ## Python `range(start, stop, step)` and list slicing

`range` with a positive step; Python raises `ValueError` when `step == 0`,
which callers below model by returning `none` before ever calling this. -/

def pyRange (start stop step : Nat) : List Nat :=
  if h : 0 < step ∧ start < stop then start :: pyRange (start + step) stop step
  else []
termination_by stop - start
decreasing_by omega

/-- Python slice `xs[a:b]` for `0 ≤ a ≤ b` (clamped at the end of the list). -/
def pySlice {α : Type} (xs : List α) (a b : Nat) : List α :=
  (xs.drop a).take (b - a)

/-- Slicing comprehension `[xs[i : i + p] for i in range(0, len(xs), p)]`
(common to both tiers). -/
def chunkWork {α : Type} (xs : List α) (p : Nat) : List (List α) :=
  (pyRange 0 xs.length p).map (fun i => pySlice xs i (i + p))

/-- Outer-tier partition of `download_tabular_resources`
(`ckan.py` lines 195-200): `packages_per_process = len(metadata) //
cfg.max_process_workers`, then slicing with that step.  A zero step makes
Python's `range` raise `ValueError`, modelled as `none`. -/
def download_partition {α : Type} (metadata : List α) (maxProcessWorkers : Nat) :
    Option (List (List α)) :=
  let packagesPerProcess := metadata.length / maxProcessWorkers
  if packagesPerProcess = 0 then none
  else some (chunkWork metadata packagesPerProcess)

/-- Inner-tier partition of `_process_task` (`ckan.py` lines 154-159):
`packages_per_thread = max(len(metadata) // cfg.max_thread_workers, 1)`,
then the same slicing comprehension. -/
def thread_partition {α : Type} (metadata : List α) (maxThreadWorkers : Nat) :
    List (List α) :=
  chunkWork metadata (max (metadata.length / maxThreadWorkers) 1)

/-! ## Resource streamer (`_thread_task` / `stream_data_to_disk`)

An HTTP response is modelled by its status, its declared `Content-Length`
header (`none` covers an absent or empty header, both falsy in Python), the
body chunks yielded by `response.stream(chunk_size)`, whether that chunk
loop runs to completion (`streamOk = false` injects an I/O exception
mid-loop, after the chunks in `preErrorChunks` were already written). -/

structure HttpResponse where
  status : Nat
  contentLength : Option Nat
  chunks : List (List Nat)
  streamOk : Bool
  preErrorChunks : List (List Nat)
deriving DecidableEq

/-- Per-resource classification; in the source every non-success case is an
exception caught by `except Exception` and appended to the error list. -/
inductive FetchOutcome where
  | success : FetchOutcome
  | httpError : Nat → FetchOutcome
  | tooLarge : Nat → Nat → FetchOutcome
  | otherError : FetchOutcome
deriving DecidableEq

def FetchOutcome.isSuccess : FetchOutcome → Bool
  | .success => true
  | _ => false

/-- Observable effect of one per-resource fetch: its classification, whether
`stream_data_to_disk` was entered, whether `response.release_conn()` ran, and
the `(path, bytes)` files left under the datasets folder. -/
structure ResourceResult where
  outcome : FetchOutcome
  streamReached : Bool
  released : Bool
  files : List (String × List Nat)
deriving DecidableEq

/-- Model of `stream_data_to_disk` (`ckan.py` lines 63-93): write the body chunk by
chunk to `<resource_id>.<download_format>`, then `response.release_conn()`.
The commented-out ZIP-signature check is not executed by the source, so the
body bytes are written verbatim whatever they start with.  If the chunk loop
raises, the partially written file remains and `release_conn` is never
reached. -/
def stream_data_to_disk (resp : HttpResponse)
    (resource_id download_format : String) : ResourceResult :=
  if resp.streamOk then
    { outcome := .success, streamReached := true, released := true,
      files := [(resource_id ++ (".") ++ download_format, resp.chunks.flatten)] }
  else
    { outcome := .otherError, streamReached := true, released := false,
      files := [(resource_id ++ (".") ++ download_format,
        resp.preErrorChunks.flatten)] }

/-- Body of the per-resource loop of `_thread_task` (`ckan.py` lines
103-131): raise `HTTPResourceError` on status ≥ 400, then raise
`TooLargeResourceError` when a declared content length exceeds
`cfg.max_resource_size`, otherwise stream to disk.  Raised exceptions skip
`stream_data_to_disk`, and nothing on these paths releases the pooled
connection. -/
def processResource (resource_id download_format : String)
    (resp : HttpResponse) (max_resource_size : Nat) : ResourceResult :=
  if 400 ≤ resp.status then
    { outcome := .httpError resp.status, streamReached := false,
      released := false, files := [] }
  else
    match resp.contentLength with
    | some n =>
      if max_resource_size < n then
        { outcome := .tooLarge n max_resource_size, streamReached := false,
          released := false, files := [] }
      else stream_data_to_disk resp resource_id download_format
    | none => stream_data_to_disk resp resource_id download_format

/-- The `for resource_id, url in metadata` loop of `_thread_task`: count
successes, record each failure (with its URL) in the error list. -/
def thread_task (download_format : String) (max_resource_size : Nat) :
    List (String × String × HttpResponse) → Nat × List (String × FetchOutcome)
  | [] => (0, [])
  | (rid, url, resp) :: rest =>
    let r := processResource rid download_format resp max_resource_size
    let acc := thread_task download_format max_resource_size rest
    if r.outcome.isSuccess then (acc.1 + 1, acc.2)
    else (acc.1, (url, r.outcome) :: acc.2)

def respOversized : HttpResponse :=
  { status := 200, contentLength := some 101, chunks := [[1]],
    streamOk := true, preErrorChunks := [] }

def resp404oversized : HttpResponse :=
  { status := 404, contentLength := some 101, chunks := [],
    streamOk := true, preErrorChunks := [] }

def resp404 : HttpResponse :=
  { status := 404, contentLength := none, chunks := [], streamOk := true,
    preErrorChunks := [] }

def respZip : HttpResponse :=
  { status := 200, contentLength := none, chunks := [[80, 75, 3, 4], [9, 9]],
    streamOk := true, preErrorChunks := [] }

/-! ## Log-directory retention (`init_logger`, `utils.py` lines 9-22)

`init_logger` sorts the names under the parent log root in reverse order
(`sorted(os.listdir(...), reverse=True)`), keeps the first three and
recursively deletes the rest.  It is called by `download_tabular_resources`
once, and again by every `_process_task` worker.  By the time of the first
call, `ckan_download_datasets` has already created (`mkdir`) the new run
directory, so the listing includes it. -/

/-- Insertion step of the descending sort (`sorted(..., reverse=True)`).
Directory names (timestamp strings in the source, compared
lexicographically) are abstracted to any linearly ordered type. -/
def insertDesc {α : Type} [LinearOrder α] (x : α) : List α → List α
  | [] => [x]
  | y :: ys => if x < y then y :: insertDesc x ys else x :: y :: ys

def sortDesc {α : Type} [LinearOrder α] (l : List α) : List α :=
  l.foldr insertDesc []

/-- One execution of the retention sweep inside `init_logger`: the
directories surviving `shutil.rmtree` of `old_dirs[3:]`. -/
def sweepOnce {α : Type} [LinearOrder α] (names : List α) : List α :=
  let old_dirs := sortDesc names
  let dirs_to_delete := old_dirs.drop 3
  names.filter (fun d => decide (d ∉ dirs_to_delete))

/-- Directory listing of the parent log root across one
`ckan_download_datasets` run, together with how many times the sweep was
executed: the run dir is created first, then `download_tabular_resources`
runs `init_logger` once, then each of the `workers` processes runs it
again. -/
def run_logging {α : Type} [LinearOrder α] (priorRuns : List α) (newRun : α)
    (workers : Nat) : List α × Nat :=
  let afterMkdir := priorRuns ++ [newRun]
  let afterMain := sweepOnce afterMkdir
  let afterWorkers := sweepOnce^[workers] afterMain
  (afterWorkers, 1 + workers)

/-! ## Resource resolution (`fetch_metadata`, `ckan.py` lines 223-309)

A raw catalog resource record keeps the three fields the code reads.
Python's `None` and `""` are both falsy; `name` models both by `""`. -/

structure Rsc where
  id : String
  name : String
  url : String
deriving DecidableEq

/-- Model of `resource_id.replace("/", "_")`: a single-character replace is a
character map. -/
def sanitize_id (s : String) : String :=
  ⟨s.data.map (fun c => if c = '/' then '_' else c)⟩

def repSpace (c : Char) : Char := if c = ' ' then '-' else c

def repColon (c : Char) : Char := if c = ':' then '-' else c

/-- Python `str.strip()`: drop leading and trailing whitespace. -/
def pyStrip (s : String) : String :=
  ⟨((s.data.dropWhile Char.isWhitespace).reverse.dropWhile
    Char.isWhitespace).reverse⟩

/-- Model of `resource_name.strip().replace(" ", "-").replace(":", "-")`. -/
def sanitize_name (s : String) : String :=
  ⟨((pyStrip s).data.map repSpace).map repColon⟩

/-- Model of `resource_name.strip()... if resource_name else ""`: the sanitized name,
or `""` when the raw name is falsy. -/
def name_component (name : String) : String :=
  if name = ("") then ("") else sanitize_name name

/-- The stored resource id (`ckan.py` lines 279-289): sanitize the id, and
when `cfg.save_with_resource_name` is set and the sanitized name is truthy,
prefix it as `"{}::{}".format(resource_name, resource_id)`. -/
def stored_resource_id (save_with_resource_name : Bool) (name id : String) :
    String :=
  let rid := sanitize_id id
  let rname := name_component name
  if save_with_resource_name ∧ rname ≠ ("") then rname ++ ("::") ++ rid
  else rid

/-- Model of `url.startswith("http")` as a char-level test. -/
def startsWithHttp (url : String) : Bool :=
  List.isPrefixOf ("http").data url.data

/-- Model of `if not url.startswith("http"): url = f"{client.base_url}/{url}"`. -/
def fix_url (base_url url : String) : String :=
  if startsWithHttp url then url else base_url ++ ("/") ++ url

/-- The `for resource in resources` loop of `fetch_metadata` (lines
263-295): apply the caller's filter predicate (which may itself raise —
modelled by `Except`; the call site is not inside any `try`, so the error
propagates), drop resources with falsy url or id, sanitize, optionally
prefix with the display name, fix relative URLs.  Returns the
`(resource_id, url)` pairs and the `package_resource_ids` list. -/
def process_resources (fl : Option (Rsc → Except String Bool))
    (save_with_resource_name : Bool) (base_url : String) :
    List Rsc → Except String (List (String × String) × List String)
  | [] => Except.ok ([], [])
  | r :: rest =>
    match (match fl with
           | some f => f r
           | none => Except.ok true : Except String Bool) with
    | Except.error e => Except.error e
    | Except.ok keep =>
      if keep = false then
        process_resources fl save_with_resource_name base_url rest
      else if r.url = ("") ∨ r.id = ("") then
        process_resources fl save_with_resource_name base_url rest
      else
        match process_resources fl save_with_resource_name base_url rest with
        | Except.error e => Except.error e
        | Except.ok (refs, ids) =>
          Except.ok
            ((stored_resource_id save_with_resource_name r.name r.id,
              fix_url base_url r.url) :: refs,
             sanitize_id r.id :: ids)

/-- The `for package in packages` loop: each package contributes the refs of
its surviving resources, in page order.  A filter error propagates. -/
def processPackages (fl : Option (Rsc → Except String Bool)) (sw : Bool)
    (base_url : String) :
    List (List Rsc) → Except String (List (String × String))
  | [] => Except.ok []
  | pkg :: rest =>
    match process_resources fl sw base_url pkg with
    | Except.error e => Except.error e
    | Except.ok (refs, _ids) =>
      match processPackages fl sw base_url rest with
      | Except.error e => Except.error e
      | Except.ok more => Except.ok (refs ++ more)

/-- The pagination loop of `fetch_metadata` (lines 244-307).  `search call
start` abstracts `client.package_search(start=start, rows=batch)` at the
`call`-th invocation (the client is stateful, so failures may be
transient).  The `try` wraps only the search call and the `start +=
batch_fetch_metadata` line: on a search failure the offset is NOT advanced
and the next iteration retries the same offset; errors raised while
processing packages (e.g. by the filter predicate) abort the whole loop.
Returns the offsets passed to `search`, and the accumulated refs (or the
aborting error). -/
def fetch_loop (search : Nat → Nat → Except String (List (List Rsc)))
    (fl : Option (Rsc → Except String Bool)) (sw : Bool) (base_url : String)
    (batch : Nat) :
    Nat → Nat → Nat → List Nat × Except String (List (String × String))
  | 0, _, _ => ([], Except.ok [])
  | n + 1, call, start =>
    match search call start with
    | Except.error _ =>
      let r := fetch_loop search fl sw base_url batch n (call + 1) start
      (start :: r.1, r.2)
    | Except.ok pkgs =>
      match processPackages fl sw base_url pkgs with
      | Except.error e => ([start], Except.error e)
      | Except.ok refs =>
        let r := fetch_loop search fl sw base_url batch n (call + 1)
          (start + batch)
        (start :: r.1,
         match r.2 with
         | Except.error e => Except.error e
         | Except.ok more => Except.ok (refs ++ more))

/-- Entry of `fetch_metadata`: `packages_count = min(count, cfg.max_datasets)`;
the loop runs over `range(0, packages_count, cfg.batch_fetch_metadata)` (a
zero batch would raise `ValueError`, hence `none`) while the offset starts
at `cfg.from_dataset_index`. -/
def fetch_metadata_model (search : Nat → Nat → Except String (List (List Rsc)))
    (fl : Option (Rsc → Except String Bool)) (sw : Bool) (base_url : String)
    (count max_datasets batch from_dataset_index : Nat) :
    Option (List Nat × Except String (List (String × String))) :=
  if batch = 0 then none
  else some (fetch_loop search fl sw base_url batch
    (pyRange 0 (min count max_datasets) batch).length 0 from_dataset_index)

def rscA : Rsc := { id := ("a"), name := (""), url := ("http://x/a.csv") }

/-- A catalog client whose very first page request fails and which then
serves one single-resource package per page. -/
def searchFailFirst : Nat → Nat → Except String (List (List Rsc)) :=
  fun call _ =>
    if call = 0 then Except.error ("ConnectionError") else Except.ok [[rscA]]

def fThrow : Rsc → Except String Bool := fun _ => Except.error ("FilterBoom")

def searchOneA : Nat → Nat → Except String (List (List Rsc)) :=
  fun _ _ => Except.ok [[rscA]]

/-! ## Sanitization and the `"::"` join separator (C10) -/

/-- Whether a character list contains the two-character separator `"::"` as
a contiguous substring. -/
def hasSep : List Char → Bool
  | [] => false
  | [_] => false
  | c :: d :: rest => (c == ':' && d == ':') || hasSep (d :: rest)

/-! ## Job state load / persist (`ckan_download_datasets`, lines 323-342)

The filesystem is a partial map from path to raw file content.  JSON
encoding and decoding are abstracted by parameters.  The code checks only
`rsc_url_path.exists()`; in the cached branch it then opens BOTH files
(`open` on a missing path raises `FileNotFoundError`), otherwise it calls
`fetch_metadata` (abstracted by the `fetched` argument).  Afterwards, `if
cfg.save_metadata:` it writes `metadata.json` then `rsc_url.json`.  The
result records whether resolution was invoked, the state used, and the
writes performed. -/

inductive PyError where
  | fileNotFound : String → PyError
deriving DecidableEq

def rscUrlJsonPath : String := "metadata/rsc_url.json"

def metadataJsonPath : String := "metadata/metadata.json"

def pyOpenRead (fs : String → Option String) (path : String) :
    Except PyError String :=
  match fs path with
  | some content => Except.ok content
  | none => Except.error (PyError.fileNotFound path)

def ckan_state_phase {μ : Type} (fs : String → Option String)
    (parseRefs : String → Except PyError (List (String × String)))
    (parseMeta : String → Except PyError μ)
    (dumpRefs : List (String × String) → String) (dumpMeta : μ → String)
    (save_metadata : Bool) (fetched : List (String × String) × μ) :
    Except PyError
      (Bool × (List (String × String) × μ) × List (String × String)) :=
  let loadedE : Except PyError (Bool × (List (String × String) × μ)) :=
    if (fs rscUrlJsonPath).isSome then
      match pyOpenRead fs rscUrlJsonPath with
      | Except.error e => Except.error e
      | Except.ok rawRefs =>
        match parseRefs rawRefs with
        | Except.error e => Except.error e
        | Except.ok refs =>
          match pyOpenRead fs metadataJsonPath with
          | Except.error e => Except.error e
          | Except.ok rawMeta =>
            match parseMeta rawMeta with
            | Except.error e => Except.error e
            | Except.ok md => Except.ok (false, (refs, md))
    else Except.ok (true, fetched)
  match loadedE with
  | Except.error e => Except.error e
  | Except.ok loaded =>
    let writes :=
      if save_metadata then
        [(metadataJsonPath, dumpMeta loaded.2.2),
         (rscUrlJsonPath, dumpRefs loaded.2.1)]
      else []
    Except.ok (loaded.1, loaded.2, writes)

def parseRefs0 : String → Except PyError (List (String × String)) :=
  fun _ => Except.ok [(("i"), ("u"))]

def parseMeta0 : String → Except PyError Nat := fun _ => Except.ok 7

def dumpRefs0 : List (String × String) → String := fun _ => ("refsdump")

def dumpMeta0 : Nat → String := fun _ => ("metadump")

def fsBoth : String → Option String := fun p =>
  if p = rscUrlJsonPath then some ("[]")
  else if p = metadataJsonPath then some ("[]")
  else none

def fsOnlyRsc : String → Option String := fun p =>
  if p = rscUrlJsonPath then some ("[]") else none

def fsNone : String → Option String := fun _ => none

def writesOf {μ : Type} :
    Except PyError
      (Bool × (List (String × String) × μ) × List (String × String)) →
    List (String × String)
  | Except.ok (_, _, w) => w
  | Except.error _ => []

theorem pyRange_eq_nil {start stop step : Nat} (h : ¬ (0 < step ∧ start < stop)) :
    pyRange start stop step = [] := by
  rw [pyRange]
  exact dif_neg h

theorem pyRange_eq_cons {start stop step : Nat} (h : 0 < step ∧ start < stop) :
    pyRange start stop step = start :: pyRange (start + step) stop step := by
  rw [pyRange]
  exact dif_pos h

theorem pyRange_add_right (step c : Nat) :
    ∀ (k a b : Nat), b - a ≤ k →
      pyRange (a + c) (b + c) step = (pyRange a b step).map (· + c) := by
  intro k
  induction k with
  | zero =>
    intro a b hk
    have hab : ¬ (0 < step ∧ a < b) := by omega
    have hab' : ¬ (0 < step ∧ a + c < b + c) := by omega
    rw [pyRange_eq_nil hab, pyRange_eq_nil hab']
    rfl
  | succ k ih =>
    intro a b hk
    by_cases h : 0 < step ∧ a < b
    · have h' : 0 < step ∧ a + c < b + c := by omega
      rw [pyRange_eq_cons h, pyRange_eq_cons h', List.map_cons]
      have := ih (a + step) b (by omega)
      rw [show a + c + step = a + step + c by omega, this]
    · have h' : ¬ (0 < step ∧ a + c < b + c) := by omega
      rw [pyRange_eq_nil h, pyRange_eq_nil h']
      rfl

theorem chunkWork_nil {α : Type} (p : Nat) : chunkWork ([] : List α) p = [] := by
  unfold chunkWork
  rw [List.length_nil, pyRange_eq_nil (by omega)]
  rfl

theorem chunkWork_cons {α : Type} (xs : List α) (p : Nat) (hp : 0 < p)
    (hx : xs ≠ []) :
    chunkWork xs p = xs.take p :: chunkWork (xs.drop p) p := by
  have hlen : 0 < xs.length := List.length_pos.mpr hx
  unfold chunkWork
  rw [pyRange_eq_cons ⟨hp, hlen⟩, List.map_cons]
  have hhead : pySlice xs 0 (0 + p) = xs.take p := by
    simp [pySlice]
  rw [hhead]
  congr 1
  rw [List.length_drop]
  by_cases hple : xs.length ≤ p
  · have h1 : pyRange (0 + p) xs.length p = [] := pyRange_eq_nil (by omega)
    have h2 : pyRange 0 (xs.length - p) p = [] := pyRange_eq_nil (by omega)
    rw [h1, h2]
    rfl
  · have hsub : xs.length - p + p = xs.length := by omega
    have := pyRange_add_right p p (xs.length - p) 0 (xs.length - p) (by omega)
    rw [hsub] at this
    rw [this, List.map_map]
    apply List.map_congr_left
    intro j _
    simp only [Function.comp_apply, pySlice]
    rw [List.drop_drop]
    have h1 : j + p + p - (j + p) = p := by omega
    have h2 : j + p - j = p := by omega
    have h3 : j + p = p + j := by omega
    rw [h1, h2, h3]

theorem chunkWork_join_le {α : Type} (p : Nat) (hp : 0 < p) :
    ∀ (n : Nat) (xs : List α), xs.length ≤ n → (chunkWork xs p).flatten = xs := by
  intro n
  induction n with
  | zero =>
    intro xs hxs
    have : xs = [] := List.length_eq_zero.mp (by omega)
    subst this
    rw [chunkWork_nil]
    rfl
  | succ n ih =>
    intro xs hxs
    by_cases hx : xs = []
    · subst hx
      rw [chunkWork_nil]
      rfl
    · rw [chunkWork_cons xs p hp hx, List.flatten_cons]
      have hlen : 0 < xs.length := List.length_pos.mpr hx
      have : (xs.drop p).length ≤ n := by
        rw [List.length_drop]
        omega
      rw [ih (xs.drop p) this, List.take_append_drop]

/-- With a positive step, the slicing comprehension concatenates back to the
input list: every element is visited exactly once, in order. -/
theorem chunkWork_join {α : Type} (xs : List α) (p : Nat) (hp : 0 < p) :
    (chunkWork xs p).flatten = xs :=
  chunkWork_join_le p hp xs.length xs (Nat.le_refl _)

theorem chunkWork_ne_nil_le {α : Type} (p : Nat) (hp : 0 < p) :
    ∀ (n : Nat) (xs : List α), xs.length ≤ n → ∀ c ∈ chunkWork xs p, c ≠ [] := by
  intro n
  induction n with
  | zero =>
    intro xs hxs c hc
    have : xs = [] := List.length_eq_zero.mp (by omega)
    subst this
    rw [chunkWork_nil] at hc
    exact absurd hc (List.not_mem_nil c)
  | succ n ih =>
    intro xs hxs c hc
    by_cases hx : xs = []
    · subst hx
      rw [chunkWork_nil] at hc
      exact absurd hc (List.not_mem_nil c)
    · rw [chunkWork_cons xs p hp hx] at hc
      rcases List.mem_cons.mp hc with h | h
      · subst h
        intro habs
        rcases List.take_eq_nil_iff.mp habs with h0 | h0
        · omega
        · exact hx h0
      · have hlen : 0 < xs.length := List.length_pos.mpr hx
        have : (xs.drop p).length ≤ n := by
          rw [List.length_drop]
          omega
        exact ih (xs.drop p) this c h

/-- With a positive step, no produced chunk is empty. -/
theorem chunkWork_ne_nil {α : Type} (xs : List α) (p : Nat) (hp : 0 < p) :
    ∀ c ∈ chunkWork xs p, c ≠ [] :=
  chunkWork_ne_nil_le p hp xs.length xs (Nat.le_refl _)

/-- The inner tier is guarded by `max(..., 1)`, so for every input it covers
the input exactly once with non-empty sub-chunks. -/
theorem thread_partition_exact {α : Type} (xs : List α) (k2 : Nat) :
    (thread_partition xs k2).flatten = xs ∧ ∀ s ∈ thread_partition xs k2, s ≠ [] := by
  constructor
  · exact chunkWork_join xs _ (by omega)
  · exact chunkWork_ne_nil xs _ (by omega)

/-- When the refs list is at least as long as the outer worker count, the outer
partition succeeds and both tiers cover the input exactly once with non-empty
chunks. -/
theorem two_tier_partition_exact {α : Type} (xs : List α) (k1 k2 : Nat)
    (hk1 : 0 < k1) (hlen : k1 ≤ xs.length) :
    ∃ chunks, download_partition xs k1 = some chunks ∧
      chunks.flatten = xs ∧
      (∀ c ∈ chunks, c ≠ []) ∧
      (∀ c ∈ chunks, (thread_partition c k2).flatten = c ∧
        ∀ s ∈ thread_partition c k2, s ≠ []) := by
  have hp : 0 < xs.length / k1 := Nat.div_pos hlen hk1
  refine ⟨chunkWork xs (xs.length / k1), ?_, ?_, ?_, ?_⟩
  · unfold download_partition
    simp only
    rw [if_neg (by omega)]
  · exact chunkWork_join xs _ hp
  · exact chunkWork_ne_nil xs _ hp
  · intro c _
    exact thread_partition_exact c k2

theorem two_tier_partition_exact_witness :
    ∃ chunks, download_partition [10, 20, 30, 40, 50] 2 = some chunks ∧
      chunks.flatten = [10, 20, 30, 40, 50] ∧
      (∀ c ∈ chunks, c ≠ []) ∧
      (∀ c ∈ chunks, (thread_partition c 2).flatten = c ∧
        ∀ s ∈ thread_partition c 2, s ≠ []) :=
  two_tier_partition_exact [10, 20, 30, 40, 50] 2 2 (by decide) (by decide)

/-- C1: the two-tier partitioning of `download_tabular_resources` /
`_process_task`.  For a non-empty refs list shorter than the outer worker
count (and for the empty list) the outer step `len // max_process_workers`
is `0`, so Python's `range(0, len, 0)` raises `ValueError` and the run
crashes instead of degrading gracefully: the partition is not even produced.
This evaluates the embedded code at such failing inputs. -/
theorem download_partition_crashes_on_short_input :
    download_partition [(("r1" : String), ("u1" : String))] 2 = none ∧
    download_partition ([] : List (String × String)) 2 = none ∧
    download_partition [(("r1" : String), ("u1" : String)),
      (("r2" : String), ("u2" : String)), (("r3" : String), ("u3" : String))] 4
      = none := by
  refine ⟨rfl, rfl, rfl⟩

theorem processResource_tooLarge {resp : HttpResponse} {n m : Nat}
    (rid fmt : String) (hcl : resp.contentLength = some n) (hover : m < n)
    (hst : resp.status < 400) :
    processResource rid fmt resp m =
      { outcome := .tooLarge n m, streamReached := false, released := false,
        files := [] } := by
  simp only [processResource, hcl]
  rw [if_neg (show ¬ 400 ≤ resp.status from by omega), if_pos hover]

theorem thread_task_records_failure (fmt : String) (m : Nat) :
    ∀ (rs : List (String × String × HttpResponse)) (rid url : String)
      (resp : HttpResponse), (rid, url, resp) ∈ rs →
      (processResource rid fmt resp m).outcome.isSuccess = false →
      (url, (processResource rid fmt resp m).outcome) ∈ (thread_task fmt m rs).2 := by
  intro rs
  induction rs with
  | nil =>
    intro rid url resp hmem _
    exact absurd hmem (List.not_mem_nil _)
  | cons head rest ih =>
    intro rid url resp hmem hfail
    obtain ⟨rid', url', resp'⟩ := head
    simp only [thread_task]
    rcases List.mem_cons.mp hmem with heq | htail
    · simp only [Prod.mk.injEq] at heq
      obtain ⟨rfl, rfl, rfl⟩ := heq
      rw [hfail]
      simp only [Bool.false_eq_true, if_false]
      exact List.mem_cons_self _ _
    · have hmem' := ih rid url resp htail hfail
      by_cases hs : (processResource rid' fmt resp' m).outcome.isSuccess = true
      · rw [if_pos hs]
        exact hmem'
      · rw [if_neg hs]
        exact List.mem_cons_of_mem _ hmem'

/-- C3 (amended): when the response status is below 400 and the declared
`Content-Length` exceeds `cfg.max_resource_size`, the fetch raises
`TooLargeResourceError` before `stream_data_to_disk`: nothing is written to
disk, the outcome is TooLarge, and the failure is recorded in the worker's
error list. -/
theorem oversized_resource_aborts_before_streaming
    (rid url download_format : String) (resp : HttpResponse)
    (max_resource_size n : Nat) (rs : List (String × String × HttpResponse))
    (hcl : resp.contentLength = some n) (hover : max_resource_size < n)
    (hst : resp.status < 400) (hmem : (rid, url, resp) ∈ rs) :
    (processResource rid download_format resp max_resource_size).outcome
        = FetchOutcome.tooLarge n max_resource_size ∧
    (processResource rid download_format resp max_resource_size).streamReached
        = false ∧
    (processResource rid download_format resp max_resource_size).files = [] ∧
    (url, FetchOutcome.tooLarge n max_resource_size)
        ∈ (thread_task download_format max_resource_size rs).2 := by
  have hres := processResource_tooLarge rid download_format hcl hover hst
  refine ⟨by rw [hres], by rw [hres], by rw [hres], ?_⟩
  have := thread_task_records_failure download_format max_resource_size rs
    rid url resp hmem (by rw [hres]; rfl)
  rw [hres] at this
  exact this

theorem oversized_resource_aborts_before_streaming_witness :
    (processResource ("r") ("csv") respOversized 100).outcome
        = FetchOutcome.tooLarge 101 100 ∧
    (processResource ("r") ("csv") respOversized 100).streamReached = false ∧
    (processResource ("r") ("csv") respOversized 100).files = [] ∧
    (("u" : String), FetchOutcome.tooLarge 101 100)
        ∈ (thread_task ("csv") 100 [(("r"), ("u"), respOversized)]).2 :=
  oversized_resource_aborts_before_streaming ("r") ("u") ("csv") respOversized
    100 101 [(("r"), ("u"), respOversized)] rfl (by omega) (by decide)
    (List.mem_singleton.mpr rfl)

/-- C3 (counterexample): a response whose declared `Content-Length` exceeds
the cap but whose status is ≥ 400 is classified `HTTPError`, not `TooLarge`:
the status check comes first in `_thread_task`. -/
theorem oversized_with_error_status_not_tooLarge :
    resp404oversized.contentLength = some 101 ∧ 100 < 101 ∧
    (processResource ("r") ("csv") resp404oversized 100).outcome
        = FetchOutcome.httpError 404 ∧
    (processResource ("r") ("csv") resp404oversized 100).outcome
        ≠ FetchOutcome.tooLarge 101 100 := by
  refine ⟨rfl, by omega, rfl, by decide⟩

/-- C7 (amended): `response.release_conn()` runs exactly on the successful
streaming path (it is the last line of `stream_data_to_disk`); on a
classified failure or an exception mid-stream the pooled connection is not
explicitly released. -/
theorem connection_released_iff_success (rid download_format : String)
    (resp : HttpResponse) (m : Nat) :
    (processResource rid download_format resp m).released
      = (processResource rid download_format resp m).outcome.isSuccess := by
  rcases resp with ⟨st, cl, ch, sOk, pre⟩
  by_cases h4 : 400 ≤ st
  · simp [processResource, h4, FetchOutcome.isSuccess]
  · cases cl with
    | none =>
      cases sOk <;>
        simp [processResource, stream_data_to_disk, h4, FetchOutcome.isSuccess]
    | some n =>
      by_cases hov : m < n
      · simp [processResource, h4, hov, FetchOutcome.isSuccess]
      · cases sOk <;>
          simp [processResource, stream_data_to_disk, h4, hov,
            FetchOutcome.isSuccess]

/-- C7 (counterexample): on a status-404 response the per-resource fetch
raises before `stream_data_to_disk` and no code path calls `release_conn`,
so the pooled connection is not released before the next resource. -/
theorem connection_not_released_on_http_error :
    (processResource ("r") ("csv") resp404 100).released = false ∧
    (processResource ("r") ("csv") resp404 100).outcome
      = FetchOutcome.httpError 404 :=
  ⟨rfl, rfl⟩

/-- C5 (amended): the ZIP-signature handling of the design is not executed by
the source (`stream_zip_to_disk` raises `NotImplementedError` and the
signature check in `stream_data_to_disk` is commented out): whatever bytes
the body starts with, the full body is written verbatim to
`<resource_id>.<download_format>` and no other file or directory is
produced. -/
theorem body_written_verbatim (rid fmt : String) (resp : HttpResponse)
    (m : Nat) (hst : resp.status < 400)
    (hcl : ∀ k, resp.contentLength = some k → k ≤ m)
    (hok : resp.streamOk = true) :
    processResource rid fmt resp m =
      { outcome := .success, streamReached := true, released := true,
        files := [(rid ++ (".") ++ fmt, resp.chunks.flatten)] } := by
  have hst' : ¬ 400 ≤ resp.status := by omega
  cases hc : resp.contentLength with
  | none =>
    simp [processResource, stream_data_to_disk, hc, hok, hst']
  | some n =>
    have hn : n ≤ m := hcl n hc
    have hov : ¬ m < n := by omega
    simp [processResource, stream_data_to_disk, hc, hok, hst', hov]

theorem body_written_verbatim_witness :
    processResource ("rid") ("csv") respZip 100 =
      { outcome := .success, streamReached := true, released := true,
        files := [(("rid") ++ (".") ++ ("csv"), respZip.chunks.flatten)] } :=
  body_written_verbatim ("rid") ("csv") respZip 100 (by decide)
    (fun k h => nomatch h) rfl

/-- C5 (counterexample): a body beginning with the ZIP local-file-header
magic `50 4B 03 04` is left on disk as the single regular file
`<id>.<format>` holding the raw archive bytes: no `.zip` file ever exists,
none is removed, and no extraction directory `<id>/` is created. -/
theorem zip_body_not_extracted :
    respZip.chunks.flatten.take 4 = [80, 75, 3, 4] ∧
    (processResource ("rid") ("csv") respZip 100).files
      = [(("rid.csv"), [80, 75, 3, 4, 9, 9])] ∧
    ("rid.csv" : String) ≠ ("rid.zip") ∧
    ("rid.csv" : String).data.take 4 ≠ ['r', 'i', 'd', '/'] := by
  refine ⟨rfl, rfl, by decide, by decide⟩

theorem length_insertDesc {α : Type} [LinearOrder α] (x : α) :
    ∀ l : List α, (insertDesc x l).length = l.length + 1 := by
  intro l
  induction l with
  | nil => rfl
  | cons y ys ih =>
    unfold insertDesc
    by_cases h : x < y
    · rw [if_pos h, List.length_cons, ih, List.length_cons]
    · rw [if_neg h, List.length_cons, List.length_cons]

theorem length_sortDesc {α : Type} [LinearOrder α] (l : List α) :
    (sortDesc l).length = l.length := by
  induction l with
  | nil => rfl
  | cons y ys ih =>
    show (insertDesc y (sortDesc ys)).length = ys.length + 1
    rw [length_insertDesc, ih]

/-- Once three or fewer directories remain, further sweeps delete nothing. -/
theorem sweepOnce_short {α : Type} [LinearOrder α] (names : List α)
    (h : names.length ≤ 3) : sweepOnce names = names := by
  simp only [sweepOnce]
  have hd : (sortDesc names).drop 3 = [] := by
    apply List.drop_eq_nil_of_le
    rw [length_sortDesc]
    exact h
  rw [hd]
  apply List.filter_eq_self.mpr
  intro a _
  simp

/-- C4 (amended): the retention sweep runs at each `init_logger` call — once
in the dispatcher plus once per worker process — and the directory listing
it sorts already contains the newly created run directory.  All but the 3
lexicographically greatest names are deleted, so 5 ascending prior run
directories plus the new one leave the new directory and only the 2 most
recent priors; the per-worker repetitions delete nothing further. -/
theorem log_retention_keeps_top3_including_new_run {α : Type} [LinearOrder α]
    (d1 d2 d3 d4 d5 d6 : α) (w : Nat)
    (h12 : d1 < d2) (h23 : d2 < d3) (h34 : d3 < d4) (h45 : d4 < d5)
    (h56 : d5 < d6) :
    run_logging [d1, d2, d3, d4, d5] d6 w = ([d4, d5, d6], 1 + w) := by
  have h13 : d1 < d3 := lt_trans h12 h23
  have h14 : d1 < d4 := lt_trans h13 h34
  have h15 : d1 < d5 := lt_trans h14 h45
  have h16 : d1 < d6 := lt_trans h15 h56
  have h24 : d2 < d4 := lt_trans h23 h34
  have h25 : d2 < d5 := lt_trans h24 h45
  have h26 : d2 < d6 := lt_trans h25 h56
  have h35 : d3 < d5 := lt_trans h34 h45
  have h36 : d3 < d6 := lt_trans h35 h56
  have h46 : d4 < d6 := lt_trans h45 h56
  have hsort : sortDesc [d1, d2, d3, d4, d5, d6] = [d6, d5, d4, d3, d2, d1] := by
    simp [sortDesc, insertDesc, h12, h13, h14, h15, h16, h23, h24, h25, h26,
      h34, h35, h36, h45, h46, h56]
  have hmain : sweepOnce [d1, d2, d3, d4, d5, d6] = [d4, d5, d6] := by
    simp only [sweepOnce]
    rw [hsort]
    simp [List.filter, ne_of_lt, ne_of_gt, h13, h14, h15, h16, h23, h24, h25,
      h26, h34, h35, h36, h45, h46, h56, h12,
      (ne_of_gt h34 : d4 ≠ d3), (ne_of_gt h24 : d4 ≠ d2),
      (ne_of_gt h14 : d4 ≠ d1), (ne_of_gt h35 : d5 ≠ d3),
      (ne_of_gt h25 : d5 ≠ d2), (ne_of_gt h15 : d5 ≠ d1),
      (ne_of_gt h36 : d6 ≠ d3), (ne_of_gt h26 : d6 ≠ d2),
      (ne_of_gt h16 : d6 ≠ d1)]
  unfold run_logging
  simp only [List.cons_append, List.nil_append]
  rw [hmain, Function.iterate_fixed (sweepOnce_short [d4, d5, d6] (by simp))]

theorem log_retention_keeps_top3_including_new_run_witness :
    run_logging [1, 2, 3, 4, 5] (6 : Nat) 4 = ([4, 5, 6], 1 + 4) :=
  log_retention_keeps_top3_including_new_run 1 2 3 4 5 6 4 (by decide)
    (by decide) (by decide) (by decide) (by decide)

/-- C4 (counterexample): with 5 prior run directories named by ascending
timestamps (modelled here by their numeric values 1..5), a run with 2
workers leaves only the newly created directory and the 2 most recent
priors — the third most recent prior (3) is deleted, and the sweep is
executed 3 times (once per `init_logger` call), not once. -/
theorem log_retention_counterexample :
    run_logging [1, 2, 3, 4, 5] (6 : Nat) 2 = ([4, 5, 6], 3) ∧
    (3 : Nat) ∉ (run_logging [1, 2, 3, 4, 5] (6 : Nat) 2).1 ∧
    (run_logging [1, 2, 3, 4, 5] (6 : Nat) 2).2 ≠ 1 := by
  refine ⟨by decide, by decide, by decide⟩

theorem process_resources_none_ok (sw : Bool) (base_url : String) :
    ∀ rs : List Rsc, ∃ v,
      process_resources none sw base_url rs = Except.ok v := by
  intro rs
  induction rs with
  | nil => exact ⟨([], []), rfl⟩
  | cons r rest ih =>
    obtain ⟨v, hv⟩ := ih
    by_cases hskip : r.url = ("") ∨ r.id = ("")
    · exact ⟨v, by simp [process_resources, hskip, hv]⟩
    · exact ⟨((stored_resource_id sw r.name r.id, fix_url base_url r.url)
        :: v.1, sanitize_id r.id :: v.2), by simp [process_resources, hskip, hv]⟩

theorem processPackages_none_ok (sw : Bool) (base_url : String) :
    ∀ pkgs : List (List Rsc), ∃ v,
      processPackages none sw base_url pkgs = Except.ok v := by
  intro pkgs
  induction pkgs with
  | nil => exact ⟨[], rfl⟩
  | cons pkg rest ih =>
    obtain ⟨v, hv⟩ := ih
    obtain ⟨w, hw⟩ := process_resources_none_ok sw base_url pkg
    exact ⟨w.1 ++ v, by simp [processPackages, hw, hv]⟩

theorem fetch_loop_head (search : Nat → Nat → Except String (List (List Rsc)))
    (fl : Option (Rsc → Except String Bool)) (sw : Bool) (base_url : String)
    (batch : Nat) (n call start : Nat) (hn : n ≠ 0) :
    ((fetch_loop search fl sw base_url batch n call start).1).head?
      = some start := by
  cases n with
  | zero => exact absurd rfl hn
  | succ m =>
    rcases hsearch : search call start with e | pkgs
    · simp [fetch_loop, hsearch]
    · rcases hpp : processPackages fl sw base_url pkgs with e | refs
      · simp [fetch_loop, hsearch, hpp]
      · simp [fetch_loop, hsearch, hpp]

/-- C6 (amended): the pagination loop performs exactly one `search` call per
`range` iteration, so it always terminates after the fixed iteration count;
after a successful call the offset advances by `batch`, while after a failed
call the offset is NOT advanced — the next iteration retries the same
offset (so a failed page does not continue "at the next offset", and pages
at the tail are dropped instead).  With no filter predicate the loop always
returns a result (page errors are non-fatal and only shrink it). -/
theorem page_failure_retries_same_offset
    (search : Nat → Nat → Except String (List (List Rsc))) (sw : Bool)
    (base_url : String) (batch : Nat) :
    ∀ (n call start : Nat),
      (fetch_loop search none sw base_url batch n call start).1.length = n ∧
      List.Chain' (fun a b => b = a + batch ∨ b = a)
        (fetch_loop search none sw base_url batch n call start).1 ∧
      ∃ refs, (fetch_loop search none sw base_url batch n call start).2
        = Except.ok refs := by
  intro n
  induction n with
  | zero =>
    intro call start
    exact ⟨rfl, List.chain'_nil, ⟨[], rfl⟩⟩
  | succ m ih =>
    intro call start
    rcases hsearch : search call start with e | pkgs
    · obtain ⟨hlen, hchain, refs, hok⟩ := ih (call + 1) start
      refine ⟨?_, ?_, ?_⟩
      · simp [fetch_loop, hsearch, hlen]
      · simp only [fetch_loop, hsearch]
        rw [List.chain'_cons']
        refine ⟨?_, hchain⟩
        intro b hb
        cases m with
        | zero => simp [fetch_loop] at hb
        | succ k =>
          rw [fetch_loop_head search none sw base_url batch (k + 1)
            (call + 1) start (by omega)] at hb
          simp only [Option.mem_def, Option.some.injEq] at hb
          exact Or.inr hb.symm
      · exact ⟨refs, by simp [fetch_loop, hsearch, hok]⟩
    · obtain ⟨prefs, hpp⟩ := processPackages_none_ok sw base_url pkgs
      obtain ⟨hlen, hchain, refs, hok⟩ := ih (call + 1) (start + batch)
      refine ⟨?_, ?_, ?_⟩
      · simp [fetch_loop, hsearch, hpp, hlen]
      · simp only [fetch_loop, hsearch, hpp]
        rw [List.chain'_cons']
        refine ⟨?_, hchain⟩
        intro b hb
        cases m with
        | zero => simp [fetch_loop] at hb
        | succ k =>
          rw [fetch_loop_head search none sw base_url batch (k + 1)
            (call + 1) (start + batch) (by omega)] at hb
          simp only [Option.mem_def, Option.some.injEq] at hb
          exact Or.inl hb.symm
      · exact ⟨prefs ++ refs, by simp [fetch_loop, hsearch, hpp, hok]⟩

/-- C6 (counterexample): with batch 10, three iterations and a transient
failure on the first call, the offsets queried are `[0, 0, 10]`: the failed
offset 0 is fetched twice (the loop does NOT continue at the next offset)
and the final page at offset 20 is never requested. -/
theorem page_failure_counterexample :
    (fetch_loop searchFailFirst none true ("http://base") 10 3 0 0).1
      = [0, 0, 10] ∧
    ¬ (fetch_loop searchFailFirst none true ("http://base") 10 3 0 0).1.Nodup ∧
    (fetch_loop searchFailFirst none true ("http://base") 10 3 0 0).1
      ≠ [0, 10, 20] := by
  refine ⟨rfl, by decide, by decide⟩

/-- C8 (amended): the filter predicate is invoked outside the `try` block of
`fetch_metadata`, so a predicate that raises aborts the resource loop and
the whole resolution with its error instead of rejecting the resource and
continuing. -/
theorem throwing_filter_aborts_resolution
    (f : Rsc → Except String Bool) (e : String) (r0 : Rsc) (rest : List Rsc)
    (search : Nat → Nat → Except String (List (List Rsc)))
    (sw : Bool) (base_url : String) (batch n call start : Nat)
    (hf : f r0 = Except.error e)
    (hs : search call start = Except.ok [r0 :: rest]) :
    process_resources (some f) sw base_url (r0 :: rest) = Except.error e ∧
    (fetch_loop search (some f) sw base_url batch (n + 1) call start).2
      = Except.error e := by
  have h1 : process_resources (some f) sw base_url (r0 :: rest)
      = Except.error e := by
    simp [process_resources, hf]
  refine ⟨h1, ?_⟩
  simp [fetch_loop, hs, processPackages, h1]

theorem throwing_filter_aborts_resolution_witness :
    process_resources (some fThrow) true ("b") [rscA] = Except.error ("FilterBoom") ∧
    (fetch_loop searchOneA (some fThrow) true ("b") 10 (0 + 1) 0 0).2
      = Except.error ("FilterBoom") :=
  throwing_filter_aborts_resolution fThrow ("FilterBoom") rscA [] searchOneA
    true ("b") 10 0 0 0 rfl rfl

/-- C8 (counterexample): a predicate that raises on the one resource of the
one page makes the whole resolution return the error — it is not treated as
a rejected resource with an `ok` (empty) result, contrary to the claim. -/
theorem throwing_filter_counterexample :
    (fetch_loop searchOneA (some fThrow) true ("b") 10 1 0 0).2
      = Except.error ("FilterBoom") ∧
    (fetch_loop searchOneA (some fThrow) true ("b") 10 1 0 0).2
      ≠ Except.ok [] := by
  refine ⟨rfl, ?_⟩
  rw [show (fetch_loop searchOneA (some fThrow) true ("b") 10 1 0 0).2
    = Except.error ("FilterBoom") from rfl]
  exact fun h => Except.noConfusion h

theorem str_ext {s t : String} (h : s.data = t.data) : s = t := by
  cases s
  cases t
  exact congrArg String.mk h

theorem str_data_append (a b : String) : (a ++ b).data = a.data ++ b.data := by
  cases a
  cases b
  rfl

theorem hasSep_append_sep : ∀ (n i : List Char),
    hasSep (n ++ ':' :: ':' :: i) = true := by
  intro n i
  induction n with
  | nil => rfl
  | cons c n' ih =>
    cases n' with
    | nil =>
      show (((c == ':') && (':' == ':')) || hasSep (':' :: ':' :: i)) = true
      rw [show hasSep (':' :: ':' :: i) = true from rfl, Bool.or_true]
    | cons d n'' =>
      simp only [List.cons_append] at ih
      show (((c == ':') && (d == ':'))
        || hasSep (d :: (n'' ++ ':' :: ':' :: i))) = true
      rw [ih, Bool.or_true]

theorem repColon_ne_colon (c : Char) : repColon c ≠ ':' := by
  unfold repColon
  by_cases h : c = ':'
  · rw [if_pos h]
    decide
  · rw [if_neg h]
    exact h

theorem colon_not_mem_sanitize_name (s : String) :
    ':' ∉ (sanitize_name s).data := by
  intro hmem
  simp only [sanitize_name] at hmem
  rcases List.mem_map.mp hmem with ⟨c, _, hc⟩
  exact repColon_ne_colon c hc

theorem colon_not_mem_name_component (n : String) :
    ':' ∉ (name_component n).data := by
  unfold name_component
  by_cases h : n = ("")
  · rw [if_pos h]
    exact List.not_mem_nil _
  · rw [if_neg h]
    exact colon_not_mem_sanitize_name n

theorem sep_split_unique : ∀ (n1 n2 i1 i2 : List Char),
    ':' ∉ n1 → ':' ∉ n2 →
    n1 ++ ':' :: ':' :: i1 = n2 ++ ':' :: ':' :: i2 →
    n1 = n2 ∧ i1 = i2 := by
  intro n1
  induction n1 with
  | nil =>
    intro n2 i1 i2 h1 h2 he
    cases n2 with
    | nil =>
      simp only [List.nil_append, List.cons.injEq, true_and] at he
      exact ⟨rfl, he⟩
    | cons c n2' =>
      exfalso
      simp only [List.nil_append, List.cons_append, List.cons.injEq] at he
      exact h2 (he.1 ▸ List.mem_cons_self c n2')
  | cons c n1' ih =>
    intro n2 i1 i2 h1 h2 he
    cases n2 with
    | nil =>
      exfalso
      simp only [List.nil_append, List.cons_append, List.cons.injEq] at he
      exact h1 (he.1.symm ▸ List.mem_cons_self c n1')
    | cons d n2' =>
      simp only [List.cons_append, List.cons.injEq] at he
      obtain ⟨hcd, htail⟩ := he
      have h1' : ':' ∉ n1' := fun hm => h1 (List.mem_cons_of_mem _ hm)
      have h2' : ':' ∉ n2' := fun hm => h2 (List.mem_cons_of_mem _ hm)
      obtain ⟨hn, hi⟩ := ih n2' i1 i2 h1' h2' htail
      exact ⟨by rw [hcd, hn], hi⟩

theorem stored_data_prefixed (rn rid : String) :
    (rn ++ ("::") ++ rid).data = rn.data ++ ':' :: ':' :: rid.data := by
  rw [str_data_append, str_data_append]
  rw [List.append_assoc]
  rfl

/-- C10 (amended): the stored id is the sanitized id, optionally prefixed by
the sanitized display name joined with `"::"`; the separator can never
appear inside the sanitized name component (every `":"` is replaced), but it
CAN survive inside the sanitized id (only `"/"` is replaced there), and
sanitization itself can collide distinct ids.  Restricted to resources whose
sanitized ids are separator-free, the stored id determines the sanitized
name and sanitized id components uniquely. -/
theorem stored_id_injective_on_sep_free (b : Bool) (n1 n2 i1 i2 : String)
    (h1 : hasSep (sanitize_id i1).data = false)
    (h2 : hasSep (sanitize_id i2).data = false)
    (he : stored_resource_id b n1 i1 = stored_resource_id b n2 i2) :
    sanitize_id i1 = sanitize_id i2 ∧
    (b = false ∨ name_component n1 = name_component n2) := by
  simp only [stored_resource_id] at he
  cases b with
  | false =>
    rw [if_neg (by simp), if_neg (by simp)] at he
    exact ⟨he, Or.inl rfl⟩
  | true =>
    by_cases e1 : name_component n1 = ("")
    · by_cases e2 : name_component n2 = ("")
      · rw [if_neg (by simp [e1]), if_neg (by simp [e2])] at he
        exact ⟨he, Or.inr (e1.trans e2.symm)⟩
      · exfalso
        rw [if_neg (by simp [e1]), if_pos ⟨rfl, e2⟩] at he
        have := congrArg String.data he
        rw [stored_data_prefixed] at this
        rw [this, hasSep_append_sep] at h1
        exact Bool.noConfusion h1
    · by_cases e2 : name_component n2 = ("")
      · exfalso
        rw [if_pos ⟨rfl, e1⟩, if_neg (by simp [e2])] at he
        have := congrArg String.data he
        rw [stored_data_prefixed] at this
        rw [← this, hasSep_append_sep] at h2
        exact Bool.noConfusion h2
      · rw [if_pos ⟨rfl, e1⟩, if_pos ⟨rfl, e2⟩] at he
        have := congrArg String.data he
        rw [stored_data_prefixed, stored_data_prefixed] at this
        obtain ⟨hn, hi⟩ := sep_split_unique _ _ _ _
          (colon_not_mem_name_component n1) (colon_not_mem_name_component n2)
          this
        exact ⟨str_ext hi, Or.inr (str_ext hn)⟩

theorem stored_id_injective_on_sep_free_witness :
    sanitize_id ("idx") = sanitize_id ("idx") ∧
    (true = false ∨ name_component ("nm") = name_component ("nm")) :=
  stored_id_injective_on_sep_free true ("nm") ("nm") ("idx") ("idx")
    rfl rfl rfl

/-- C10 (counterexample): the sanitization `id.replace("/", "_")` collides
distinct original ids (`"a/b"` and `"a_b"` map to the same stored id), and
the separator `"::"` survives unchanged inside a sanitized id, so the
mapping from stored id back to the original `(name, id)` pair is not
collision-free. -/
theorem sanitize_collision_counterexample :
    stored_resource_id true ("") ("a/b") = stored_resource_id true ("") ("a_b") ∧
    ("a/b" : String) ≠ ("a_b") ∧
    sanitize_id ("a::b") = ("a::b") ∧
    hasSep (sanitize_id ("a::b")).data = true := by
  refine ⟨rfl, by decide, rfl, rfl⟩

/-- C2 (amended): the resume signal is the existence of
`metadata/rsc_url.json` alone; when it is present (and both files load),
the cached state is used verbatim, the writes depend only on it, and the
result is the same for every value the catalog client / `fetch_metadata`
would produce — resolution is never invoked.  (When `rsc_url.json` is
present but `metadata.json` is missing, the load raises `FileNotFoundError`
instead of falling back to a fresh resolve; see the counterexample.) -/
theorem resume_short_circuits_resolution {μ : Type}
    (fs : String → Option String)
    (parseRefs : String → Except PyError (List (String × String)))
    (parseMeta : String → Except PyError μ)
    (dumpRefs : List (String × String) → String) (dumpMeta : μ → String)
    (save : Bool) (fetched : List (String × String) × μ)
    (rawR rawM : String) (refs : List (String × String)) (md : μ)
    (hR : fs rscUrlJsonPath = some rawR)
    (hpR : parseRefs rawR = Except.ok refs)
    (hM : fs metadataJsonPath = some rawM)
    (hpM : parseMeta rawM = Except.ok md) :
    ckan_state_phase fs parseRefs parseMeta dumpRefs dumpMeta save fetched =
      Except.ok (false, (refs, md),
        if save then
          [(metadataJsonPath, dumpMeta md), (rscUrlJsonPath, dumpRefs refs)]
        else []) := by
  cases save <;>
    simp [ckan_state_phase, pyOpenRead, hR, hM, hpR, hpM]

theorem resume_short_circuits_resolution_witness :
    ckan_state_phase fsBoth parseRefs0 parseMeta0 dumpRefs0 dumpMeta0 true
      ([], 0) =
      Except.ok (false, ([(("i"), ("u"))], 7),
        if true then
          [(metadataJsonPath, dumpMeta0 7),
           (rscUrlJsonPath, dumpRefs0 [(("i"), ("u"))])]
        else []) :=
  resume_short_circuits_resolution fsBoth parseRefs0 parseMeta0 dumpRefs0
    dumpMeta0 true ([], 0) ("[]") ("[]") [(("i"), ("u"))] 7 rfl rfl rfl rfl

/-- C2 (counterexample): with `rsc_url.json` present but `metadata.json`
absent — i.e. NOT both state files present — the run does not fall back to
a fresh resolve as the claim requires: the code takes the resume branch on
`rsc_url_path.exists()` alone and then crashes with `FileNotFoundError`
opening `metadata.json`. -/
theorem resume_requires_only_rsc_url_file :
    fsOnlyRsc rscUrlJsonPath = some ("[]") ∧
    fsOnlyRsc metadataJsonPath = none ∧
    ckan_state_phase fsOnlyRsc parseRefs0 parseMeta0 dumpRefs0 dumpMeta0 true
        ([], 0) = Except.error (PyError.fileNotFound metadataJsonPath) ∧
    ckan_state_phase fsOnlyRsc parseRefs0 parseMeta0 dumpRefs0 dumpMeta0 true
        ([], 0) ≠
      Except.ok (true, ([], 0),
        [(metadataJsonPath, dumpMeta0 0), (rscUrlJsonPath, dumpRefs0 [])]) := by
  refine ⟨rfl, rfl, rfl, ?_⟩
  rw [show ckan_state_phase fsOnlyRsc parseRefs0 parseMeta0 dumpRefs0 dumpMeta0
    true ([], 0) = Except.error (PyError.fileNotFound metadataJsonPath)
    from rfl]
  exact fun h => Except.noConfusion h

/-- C9 (amended): after a fresh resolve (no `rsc_url.json` cache), BOTH
persisted documents — the kept-metadata document and the ref list — are
written only when `cfg.save_metadata` is set; with the flag unset nothing at
all is written, so such a run leaves no `rsc_url.json` behind and cannot be
resumed. -/
theorem refs_persisted_only_with_save_flag {μ : Type}
    (fs : String → Option String)
    (parseRefs : String → Except PyError (List (String × String)))
    (parseMeta : String → Except PyError μ)
    (dumpRefs : List (String × String) → String) (dumpMeta : μ → String)
    (fetched : List (String × String) × μ)
    (h : fs rscUrlJsonPath = none) :
    ckan_state_phase fs parseRefs parseMeta dumpRefs dumpMeta false fetched
      = Except.ok (true, fetched, []) ∧
    ckan_state_phase fs parseRefs parseMeta dumpRefs dumpMeta true fetched
      = Except.ok (true, fetched,
          [(metadataJsonPath, dumpMeta fetched.2),
           (rscUrlJsonPath, dumpRefs fetched.1)]) := by
  constructor <;> simp [ckan_state_phase, h]

theorem refs_persisted_only_with_save_flag_witness :
    ckan_state_phase fsNone parseRefs0 parseMeta0 dumpRefs0 dumpMeta0 false
      ([(("i"), ("u"))], 7) = Except.ok (true, ([(("i"), ("u"))], 7), []) ∧
    ckan_state_phase fsNone parseRefs0 parseMeta0 dumpRefs0 dumpMeta0 true
      ([(("i"), ("u"))], 7) = Except.ok (true, ([(("i"), ("u"))], 7),
        [(metadataJsonPath, dumpMeta0 7),
         (rscUrlJsonPath, dumpRefs0 [(("i"), ("u"))])]) :=
  refs_persisted_only_with_save_flag fsNone parseRefs0 parseMeta0 dumpRefs0
    dumpMeta0 ([(("i"), ("u"))], 7) rfl

/-- C9 (counterexample): a fresh resolve with `save_metadata = False`
performs no writes at all — in particular the resolved ref list is NOT
persisted to `metadata/rsc_url.json`, contrary to the claim that the
ref-list persist happens regardless of the flag. -/
theorem refs_not_persisted_without_flag :
    writesOf (ckan_state_phase fsNone parseRefs0 parseMeta0 dumpRefs0
      dumpMeta0 false ([(("i"), ("u"))], 7)) = [] ∧
    rscUrlJsonPath ∉ (writesOf (ckan_state_phase fsNone parseRefs0 parseMeta0
      dumpRefs0 dumpMeta0 false ([(("i"), ("u"))], 7))).map Prod.fst := by
  refine ⟨rfl, by decide⟩

end ULOD
